import Mathlib

/-!
Verification development for the lilylet-markdown plugin
(`src/index.ts` of the `k-l-lambda/lilylet-markdown` repository).

The TypeScript module is shallowly embedded here:

* JavaScript strings are Lean `String`s; the JS string primitives used by the
  source (`toLowerCase`, `endsWith`, `slice(0, -n)`, global single-character
  `replace`) are embedded as executable functions over the character data.
* The external collaborators (`parseCode` from `@k-l-lambda/lilylet`,
  `meiEncoder.encode`, the optional Verovio toolkit) are parameters; calls
  that can throw are modelled with `Except String` (the caught error is the
  message string, as in `error instanceof Error ? error.message : ...`).
* `Map<string, string>` is embedded as an association list with
  first-match lookup; `set` prepends, which shadows older entries exactly
  like overwriting.
* The `try`/`catch` body of `renderLilylet` is `renderLilyletE`; the
  surrounding `catch` is the outer `match` of `renderLilylet`.
-/

namespace Lilylet

/-- The structured document produced by the external `parseCode`.  Only the
(optional) measure list is observed by this module (`doc.measures?.length`). -/
structure Doc where
  measures : Option (List Unit)

/-- The Verovio toolkit interface (`VerovioToolkit` in the source), restricted
to the operations the module invokes.  `loadData` and `renderToSVG` may throw
(modelled with `Except`); `setOptions` mutates external toolkit state and has
no observable effect inside this module, so it is not modelled. -/
structure VerovioToolkit where
  loadData : String → Except String Bool
  renderToSVG : Nat → Except String String
  getLog : String

/-- The external collaborators imported by the source module:
`parseCode` (the Lilylet parser) and `meiEncoder.encode`. -/
structure Externals where
  parseCode : String → Except String Doc
  encode : Doc → Except String String

/-- The `verovioOptions` record (scale / pageWidth / adjustPageHeight). -/
structure VerovioOptions where
  scale : Nat
  pageWidth : Nat
  adjustPageHeight : Bool

/-- `Required<LilyletPluginOptions>`: plugin options after merging with the
defaults at install time. -/
structure ResolvedOptions where
  verovioToolkit : Option VerovioToolkit
  verovioOptions : VerovioOptions
  langAliases : List String
  containerClass : String
  errorClass : String
  includeSource : Bool

/-- `DEFAULT_OPTIONS` from the source. -/
def DEFAULT_OPTIONS : ResolvedOptions :=
  ⟨none, ⟨40, 2000, true⟩, ["lilylet", "lyl"], "lilylet-container", "lilylet-error", true⟩

/-! ### JS string primitives used by the source -/

/-- Embedding of JS `String.prototype.toLowerCase` (ASCII range, which is all
the source relies on). -/
def jsToLowerCase (s : String) : String :=
  ⟨s.data.map Char.toLower⟩

/-- Embedding of JS `String.prototype.endsWith`. -/
def jsEndsWith (s pat : String) : Bool :=
  pat.data.isSuffixOf s.data

/-- Embedding of JS `s.slice(0, -n)`: drop the last `n` characters. -/
def jsSliceNeg (s : String) (n : Nat) : String :=
  ⟨s.data.take (s.data.length - n)⟩

/-- Embedding of JS `String.prototype.trim`: strip whitespace from both
ends. -/
def jsTrim (s : String) : String :=
  ⟨((s.data.dropWhile Char.isWhitespace).reverse.dropWhile Char.isWhitespace).reverse⟩

/-- Embedding of one JS `str.replace(/c/g, rep)` call where the pattern is a
single character: every occurrence of `c` is replaced by `rep`. -/
def replaceAllChar (c : Char) (rep : List Char) (l : List Char) : List Char :=
  l.flatMap fun a => if a = c then rep else [a]

/-! ### The Tag Matcher (`parseLanguageTag`, lines 95-105) -/

/-- Result record of `parseLanguageTag`. -/
structure LangTagResult where
  isLilylet : Bool
  isPlayable : Bool
deriving DecidableEq, Repr

/-- `parseLanguageTag` (source lines 95-105): lower-case the info string,
strip a trailing `".play"` (via `slice(0, -5)`), and test exact membership
in the alias list. -/
def parseLanguageTag (info : String) (aliases : List String) : LangTagResult :=
  let lower := jsToLowerCase info
  if jsEndsWith lower ".play" then
    let base := jsSliceNeg lower 5
    ⟨aliases.contains base, true⟩
  else
    ⟨aliases.contains lower, false⟩

/-! ### The Escaper (`escapeHtml`, lines 110-117) -/

/-- The five sequential global single-character replaces of `escapeHtml`,
in source order (`&` first, then `<`, `>`, `"`, and the apostrophe),
on character data. -/
def escapeData (l : List Char) : List Char :=
  replaceAllChar (Char.ofNat 39) "&#039;".data
    (replaceAllChar '"' "&quot;".data
      (replaceAllChar '>' "&gt;".data
        (replaceAllChar '<' "&lt;".data
          (replaceAllChar '&' "&amp;".data l))))

/-- `escapeHtml` (source lines 110-117). -/
def escapeHtml (s : String) : String :=
  ⟨escapeData s.data⟩

/-- Standard HTML entity decoding for the five entities produced by
`escapeHtml`.  This is the "once HTML-unescaped" operation of the spec's
round-trip property; it is not part of the source module (the browser /
downstream consumer performs it). -/
def unescapeList : List Char → List Char
  | '&' :: 'a' :: 'm' :: 'p' :: ';' :: rest => '&' :: unescapeList rest
  | '&' :: 'l' :: 't' :: ';' :: rest => '<' :: unescapeList rest
  | '&' :: 'g' :: 't' :: ';' :: rest => '>' :: unescapeList rest
  | '&' :: 'q' :: 'u' :: 'o' :: 't' :: ';' :: rest => '"' :: unescapeList rest
  | '&' :: '#' :: '0' :: '3' :: '9' :: ';' :: rest => Char.ofNat 39 :: unescapeList rest
  | c :: rest => c :: unescapeList rest
  | [] => []

/-- HTML entity decoding on strings. -/
def unescapeHtml (s : String) : String :=
  ⟨unescapeList s.data⟩

/-! ### The Render Cache (`Map<string, string>`) -/

/-- The per-installation render cache (`renderCache`). -/
def Cache := List (String × String)

/-- The empty cache (`new Map()`). -/
def Cache.empty : Cache := []

/-- `Map.get`: first-match lookup. -/
def Cache.get (c : Cache) (k : String) : Option String :=
  match c with
  | [] => none
  | (k', v) :: rest => if k' = k then some v else Cache.get rest k

/-- `Map.set`: the new binding shadows any older one. -/
def Cache.set (c : Cache) (k v : String) : Cache :=
  (k, v) :: c

/-- The cache-key derivation of `renderLilyletSync` (source line 186):
`playable ? "play:" + code : code`. -/
def cacheKeyOf (code : String) (playable : Bool) : String :=
  if playable then "play:" ++ code else code

/-! ### The Async Renderer (`renderLilylet`, lines 122-174) -/

/-- Page-height computation of `renderLilylet` (source lines 144-148):
`measureCount = doc.measures?.length || 1` and
`pageHeight = Math.max(2000, Math.ceil(measureCount / 20) * 2000)`. -/
def measureCountOf (doc : Doc) : Nat :=
  match doc.measures with
  | some l => if l.length = 0 then 1 else l.length
  | none => 1

/-- The computed page height (source line 148); `(n + 19) / 20` is
`Math.ceil(n / 20)` on naturals. -/
def computePageHeight (doc : Doc) : Nat :=
  max 2000 (((measureCountOf doc + 19) / 20) * 2000)

/-- The `try` body of `renderLilylet` (source lines 128-169): parse, encode,
build attributes, then either return the client-deferred fragment (no
toolkit) or drive the rasterizer. -/
def renderLilyletE (ext : Externals) (code : String) (opts : ResolvedOptions) :
    Except String String := do
  let doc ← ext.parseCode code
  let mei ← ext.encode doc
  let sourceAttr := if opts.includeSource then " data-source=\"" ++ escapeHtml code ++ "\"" else ""
  let meiAttr := " data-mei=\"" ++ escapeHtml mei ++ "\""
  match opts.verovioToolkit with
  | none =>
    return "<div class=\"" ++ opts.containerClass ++ "\" data-lilylet" ++ sourceAttr ++ meiAttr
      ++ "></div>"
  | some tk =>
    let _pageHeight := computePageHeight doc
    let loaded ← tk.loadData mei
    if !loaded then
      Except.error ("Verovio failed to load MEI: " ++ tk.getLog)
    else do
      let svg ← tk.renderToSVG 1
      return "<div class=\"" ++ opts.containerClass ++ "\" data-lilylet" ++ sourceAttr ++ meiAttr
        ++ ">" ++ svg ++ "</div>"

/-- `renderLilylet` (source lines 122-174): the `try` body with the `catch`
clause (lines 170-173) that converts every failure into an error fragment. -/
def renderLilylet (ext : Externals) (code : String) (opts : ResolvedOptions) : String :=
  match renderLilyletE ext code opts with
  | Except.ok s => s
  | Except.error msg =>
    "<div class=\"" ++ opts.errorClass ++ "\" data-lilylet-error><pre>" ++ escapeHtml msg
      ++ "</pre><pre>" ++ escapeHtml code ++ "</pre></div>"

/-! ### The Sync Renderer (`renderLilyletSync`, lines 179-198) -/

/-- `renderLilyletSync` (source lines 179-198): look up the cache under the
modifier-aware key; on a hit return the cached fragment, on a miss return the
pending placeholder. -/
def renderLilyletSync (code : String) (opts : ResolvedOptions) (cache : Cache)
    (playable : Bool) : String :=
  let cacheKey := cacheKeyOf code playable
  match cache.get cacheKey with
  | some cached => cached
  | none =>
    let sourceAttr := if opts.includeSource then " data-source=\"" ++ escapeHtml code ++ "\"" else ""
    let playableAttr := if playable then " data-playable" else ""
    "<div class=\"" ++ opts.containerClass ++ "\" data-lilylet-pending" ++ playableAttr
      ++ sourceAttr ++ "><code>" ++ escapeHtml code ++ "</code></div>"

/-! ### The installed fence hook and the pre-render entry point -/

/-- A fenced-block token: its info string and its content (the fields the
hook reads). -/
structure Token where
  info : String
  content : String

/-- `prerenderCode` (source lines 236-240): run the Async Renderer and store
the result in the cache under the raw code text (no modifier in the key);
returns the fragment and the updated cache. -/
def prerenderCode (ext : Externals) (opts : ResolvedOptions) (cache : Cache)
    (code : String) : String × Cache :=
  let result := renderLilylet ext code opts
  (result, cache.set code result)

/-- The fence hook installed by `lilyletPlugin` (source lines 219-232):
trim the token's info and content, classify via `parseLanguageTag`, and
either render via the Sync Renderer or delegate to the original fence
renderer with unchanged arguments. -/
def installedFence (opts : ResolvedOptions) (cache : Cache)
    (originalFence : List Token → Nat → String)
    (tokens : List Token) (idx : Nat) : String :=
  let token := tokens.getD idx ⟨"", ""⟩
  let info := jsTrim token.info
  let code := jsTrim token.content
  let r := parseLanguageTag info opts.langAliases
  if r.isLilylet then
    renderLilyletSync code opts cache r.isPlayable
  else
    originalFence tokens idx

/-- A concrete collaborator pair used in closed instances: every text parses
into a one-measure document, encoded to a fixed MEI string. -/
def sampleExternals : Externals :=
  ⟨fun _ => Except.ok ⟨some [()]⟩, fun _ => Except.ok "<mei>x</mei>"⟩

end Lilylet

/-! ## Helper lemmas -/

namespace Lilylet

set_option maxHeartbeats 3200000 in
theorem unescapeList_cons_of_ne (c : Char) (m : List Char) (h : ¬ c = '&') :
    unescapeList (c :: m) = c :: unescapeList m := by
  rw [unescapeList]
  all_goals intro rest hc hm
  all_goals exact absurd hc h

theorem replaceAllChar_append (c : Char) (rep x y : List Char) :
    replaceAllChar c rep (x ++ y) = replaceAllChar c rep x ++ replaceAllChar c rep y := by
  simp [replaceAllChar]

theorem escapeData_append (x y : List Char) :
    escapeData (x ++ y) = escapeData x ++ escapeData y := by
  simp [escapeData, replaceAllChar_append]

theorem escapeData_cons (a : Char) (l : List Char) :
    escapeData (a :: l) = escapeData [a] ++ escapeData l := by
  have h : a :: l = [a] ++ l := rfl
  rw [h, escapeData_append]

theorem escapeData_single_of_ne (a : Char) (h1 : ¬ a = '&') (h2 : ¬ a = '<')
    (h3 : ¬ a = '>') (h4 : ¬ a = '"') (h5 : ¬ a = Char.ofNat 39) :
    escapeData [a] = [a] := by
  simp [escapeData, replaceAllChar, h1, h2, h3, h4, h5]

theorem unescape_escape_single (a : Char) (m : List Char) :
    unescapeList (escapeData [a] ++ m) = a :: unescapeList m := by
  by_cases h1 : a = '&'
  · subst h1; rfl
  by_cases h2 : a = '<'
  · subst h2; rfl
  by_cases h3 : a = '>'
  · subst h3; rfl
  by_cases h4 : a = '"'
  · subst h4; rfl
  by_cases h5 : a = Char.ofNat 39
  · subst h5; rfl
  rw [escapeData_single_of_ne a h1 h2 h3 h4 h5]
  exact unescapeList_cons_of_ne a m h1

/-- Decoding is a left inverse of the escaper on character data. -/
theorem unescape_escapeData (l : List Char) : unescapeList (escapeData l) = l := by
  induction l with
  | nil => rfl
  | cons a l ih => rw [escapeData_cons, unescape_escape_single, ih]

/-- Decoding is a left inverse of `escapeHtml`. -/
theorem unescapeHtml_escapeHtml (s : String) : unescapeHtml (escapeHtml s) = s := by
  show String.mk (unescapeList (escapeData s.data)) = s
  rw [unescape_escapeData]

theorem escapeData_eq_nil_iff (l : List Char) : escapeData l = [] ↔ l = [] := by
  constructor
  · intro h
    have h2 := unescape_escapeData l
    rw [h] at h2
    exact h2.symm
  · intro h; subst h; rfl

/-! ### Cache lemmas -/

theorem Cache.get_set_same (c : Cache) (k v : String) :
    (c.set k v).get k = some v := by
  simp [Cache.get, Cache.set]

theorem Cache.get_set_ne (c : Cache) (k k' v : String) (h : ¬ k = k') :
    (c.set k v).get k' = c.get k' := by
  simp [Cache.get, Cache.set, h]

/-! ### String and collaborator lemmas -/

theorem string_append_left_cancel {s t1 t2 : String} (h : s ++ t1 = s ++ t2) : t1 = t2 := by
  have hd : s.data ++ t1.data = s.data ++ t2.data := by
    have h2 := congrArg String.data h
    simpa [String.data_append] using h2
  have h3 : t1.data = t2.data := (List.append_right_inj s.data).mp hd
  cases t1
  cases t2
  exact congrArg String.mk h3

/-- Prefixing a string with the five characters of the play marker always
changes it. -/
theorem play_key_ne (t : String) : ¬ ("play:" ++ t = t) := by
  intro h
  have hd := congrArg (fun s => s.data.length) h
  simp [String.data_append] at hd
  omega

theorem except_bind_ok {α β : Type} (a : α) (f : α → Except String β) :
    (Except.ok a >>= f : Except String β) = f a := rfl

theorem except_map_ok {α β : Type} (a : α) (f : α → β) :
    (f <$> (Except.ok a : Except String α)) = Except.ok (f a) := rfl

/-- ASCII lower-casing never produces an upper-case character. -/
theorem toLower_isUpper_false (c : Char) : (Char.toLower c).isUpper = false := by
  unfold Char.toLower
  by_cases h : c.toNat ≥ 65 ∧ c.toNat ≤ 90
  · rw [if_pos h]
    have hv : (c.toNat + 32).isValidChar := Or.inl (by omega)
    rw [Char.ofNat, dif_pos hv]
    simp only [Char.isUpper, Char.ofNatAux, Bool.and_eq_false_iff, decide_eq_false_iff_not,
      UInt32.le_def, BitVec.le_def, UInt32.toBitVec_ofNat, BitVec.toNat_ofNat,
      BitVec.toNat_ofNatLt]
    omega
  · rw [if_neg h]
    simp only [Char.toNat, UInt32.toNat] at h
    simp only [Char.isUpper, Bool.and_eq_false_iff, decide_eq_false_iff_not,
      UInt32.le_def, BitVec.le_def, UInt32.toBitVec_ofNat, BitVec.toNat_ofNat]
    omega

/-- `Math.ceil(c / 20)` on a natural number `c` is `(c + 19) / 20` in
truncating natural division. -/
theorem ceil_div_twenty (c : ℕ) : ⌈(c : ℚ) / 20⌉ = ((c + 19) / 20 : ℕ) := by
  have h1 := Nat.div_add_mod (c + 19) 20
  have h2 : (c + 19) % 20 < 20 := Nat.mod_lt _ (by norm_num)
  set q : ℕ := (c + 19) / 20 with hq
  have hmul_le : q * 20 ≤ c + 19 := by omega
  have hle : c ≤ q * 20 := by omega
  have hcast1 : (q : ℚ) * 20 ≤ (c : ℚ) + 19 := by exact_mod_cast hmul_le
  have hcast2 : (c : ℚ) ≤ (q : ℚ) * 20 := by exact_mod_cast hle
  rw [Int.ceil_eq_iff]
  constructor
  · rw [lt_div_iff₀ (by norm_num : (0 : ℚ) < 20)]
    push_cast
    linarith
  · rw [div_le_iff₀ (by norm_num : (0 : ℚ) < 20)]
    push_cast
    linarith

end Lilylet

/-! ## The claims -/

namespace Lilylet

/-- Claim C1: the Sync Renderer never invokes the parser, the encoder, or the
rasterizer (its embedding takes no collaborator argument and its output is
independent of the configured toolkit); on a cache miss it returns a
pending-placeholder fragment determined solely by its arguments, so two calls
with the same arguments and an empty cache return the same fragment. -/
theorem sync_renderer_pending_on_miss (code : String) (opts : ResolvedOptions) (cache : Cache)
    (playable : Bool) (tk : Option VerovioToolkit)
    (hmiss : cache.get (cacheKeyOf code playable) = none) :
    renderLilyletSync code opts cache playable
      = "<div class=\"" ++ opts.containerClass ++ "\" data-lilylet-pending"
          ++ (if playable then " data-playable" else "")
          ++ (if opts.includeSource then " data-source=\"" ++ escapeHtml code ++ "\"" else "")
          ++ "><code>" ++ escapeHtml code ++ "</code></div>"
    ∧ renderLilyletSync code opts cache playable
        = renderLilyletSync code opts Cache.empty playable
    ∧ renderLilyletSync code
        ⟨tk, opts.verovioOptions, opts.langAliases, opts.containerClass, opts.errorClass,
          opts.includeSource⟩ cache playable
      = renderLilyletSync code opts cache playable := by
  have hempty : (Cache.empty).get (cacheKeyOf code playable) = none := rfl
  refine ⟨?_, ?_, ?_⟩
  · simp only [renderLilyletSync, hmiss]
  · simp only [renderLilyletSync, hmiss, hempty]
  · simp only [renderLilyletSync]

/-- Witness for C1 at a concrete input. -/
theorem sync_renderer_pending_on_miss_witness :
    renderLilyletSync "c4 d4" DEFAULT_OPTIONS Cache.empty false
      = "<div class=\"lilylet-container\" data-lilylet-pending data-source=\"c4 d4\"><code>c4 d4</code></div>" :=
  ((sync_renderer_pending_on_miss "c4 d4" DEFAULT_OPTIONS Cache.empty false none rfl).1).trans
    (by decide)

/-- Claim C2 fails as stated: the pairs `("play:x", plain)` and `("x", playable)`
are distinct yet derive the same cache key. -/
theorem cacheKey_collision :
    cacheKeyOf "play:x" false = cacheKeyOf "x" true ∧ ¬ ("play:x" = "x" ∧ false = true) := by
  refine ⟨rfl, ?_⟩
  intro hc
  exact Bool.noConfusion hc.2

/-- Claim C2, amended: two distinct (text, modifier) pairs derive the same
cache key only when their modifiers differ and the plain-modifier text is
exactly the playable text prefixed with the play marker; all other distinct
pairs get distinct keys. -/
theorem cacheKey_injective_characterization (t1 t2 : String) (p1 p2 : Bool)
    (hne : ¬ (t1 = t2 ∧ p1 = p2))
    (hkey : cacheKeyOf t1 p1 = cacheKeyOf t2 p2) :
    ¬ p1 = p2 ∧ (p1 = true → t2 = "play:" ++ t1) ∧ (p1 = false → t1 = "play:" ++ t2) := by
  cases p1 <;> cases p2
  · exact absurd ⟨by simpa [cacheKeyOf] using hkey, rfl⟩ hne
  · exact ⟨by decide, fun h => absurd h (by decide), fun _ => by simpa [cacheKeyOf] using hkey⟩
  · exact ⟨by decide, fun _ => by simpa [cacheKeyOf] using hkey.symm, fun h => absurd h (by decide)⟩
  · exact absurd ⟨string_append_left_cancel (by simpa [cacheKeyOf] using hkey), rfl⟩ hne

/-- Witness for the amended C2 at a concrete colliding pair. -/
theorem cacheKey_injective_characterization_witness :
    ¬ (true = false) ∧ (true = true → "play:a" = "play:" ++ "a")
      ∧ (true = false → ("a" : String) = "play:" ++ "play:a") :=
  cacheKey_injective_characterization "a" "play:a" true false (by decide) (by decide)

/-- Claim C3 fails as stated: pre-rendering a block (the driver calls
`prerenderCode` for playable-tagged blocks too, and it keys by the bare text)
makes the plain-modifier lookup key present in the cache. -/
theorem prerender_playable_plain_lookup_hits :
    (Cache.get ((prerenderCode sampleExternals DEFAULT_OPTIONS Cache.empty "c4").2)
        (cacheKeyOf "c4" false)).isSome = true := by
  decide

/-- Claim C3, amended: `prerenderCode` stores under the bare text key, so
after pre-rendering any block with text `code` the plain-modifier lookup hits
(with the async fragment), while the playable-modifier lookup is unaffected
by that write (its key differs from the bare text). -/
theorem prerender_key_ignores_modifier (ext : Externals) (opts : ResolvedOptions)
    (cache : Cache) (code : String) :
    Cache.get ((prerenderCode ext opts cache code).2) (cacheKeyOf code false)
        = some (renderLilylet ext code opts)
    ∧ Cache.get ((prerenderCode ext opts cache code).2) (cacheKeyOf code true)
        = Cache.get cache (cacheKeyOf code true) := by
  constructor
  · exact Cache.get_set_same cache code (renderLilylet ext code opts)
  · exact Cache.get_set_ne cache code ("play:" ++ code) (renderLilylet ext code opts)
      (fun h => play_key_ne code h.symm)

/-- Claim C4: once the cache has been populated via the Async Renderer for a
text (the `prerenderCode` path), a plain-modifier Sync Render of that text
returns exactly the cached fragment, not a placeholder. -/
theorem sync_serves_prerendered_fragment (ext : Externals) (opts : ResolvedOptions)
    (cache : Cache) (code : String) :
    renderLilyletSync code opts ((prerenderCode ext opts cache code).2) false
      = renderLilylet ext code opts := by
  simp only [renderLilyletSync, prerenderCode, cacheKeyOf, if_neg Bool.false_ne_true,
    Cache.get_set_same]

/-- Claim C5: the Async Renderer is total — whatever the collaborators do it
returns a fragment: either the successful pipeline output, or (when any stage
throws, including a failed rasterizer load) the error fragment carrying the
error CSS class, the error marker, the escaped message and the escaped
source. -/
theorem async_renderer_total (ext : Externals) (code : String) (opts : ResolvedOptions) :
    (∃ ok, renderLilyletE ext code opts = Except.ok ok ∧ renderLilylet ext code opts = ok)
    ∨ (∃ msg, renderLilyletE ext code opts = Except.error msg
        ∧ renderLilylet ext code opts
          = "<div class=\"" ++ opts.errorClass ++ "\" data-lilylet-error><pre>"
              ++ escapeHtml msg ++ "</pre><pre>" ++ escapeHtml code ++ "</pre></div>") := by
  cases h : renderLilyletE ext code opts with
  | ok s => exact Or.inl ⟨s, rfl, by simp [renderLilylet, h]⟩
  | error msg => exact Or.inr ⟨msg, rfl, by simp [renderLilylet, h]⟩

/-- Claim C6: with no rasterizer configured, a successful Async Render yields
the client-deferred fragment whose data-source attribute value unescapes back
to the source text exactly, whose data-mei attribute value unescapes to the
encoder output (non-empty when that output is), and whose element content is
empty. -/
theorem async_render_roundtrip (ext : Externals) (opts : ResolvedOptions) (code : String)
    (doc : Doc) (mei : String)
    (hp : ext.parseCode code = Except.ok doc)
    (he : ext.encode doc = Except.ok mei)
    (ht : opts.verovioToolkit = none)
    (hs : opts.includeSource = true) :
    renderLilylet ext code opts
      = "<div class=\"" ++ opts.containerClass ++ "\" data-lilylet"
          ++ (" data-source=\"" ++ escapeHtml code ++ "\"")
          ++ (" data-mei=\"" ++ escapeHtml mei ++ "\"") ++ "></div>"
    ∧ unescapeHtml (escapeHtml code) = code
    ∧ unescapeHtml (escapeHtml mei) = mei
    ∧ (¬ mei = "" → ¬ escapeHtml mei = "") := by
  refine ⟨?_, unescapeHtml_escapeHtml code, unescapeHtml_escapeHtml mei, ?_⟩
  · simp [renderLilylet, renderLilyletE, hp, he, ht, hs, except_bind_ok, except_map_ok,
      String.append_assoc]
  · intro hne hesc
    apply hne
    have h3 := congrArg String.data hesc
    have h4 : escapeData mei.data = [] := h3
    have h5 := (escapeData_eq_nil_iff mei.data).mp h4
    cases mei
    exact congrArg String.mk h5

/-- Witness for C6 at a concrete input whose text and MEI need escaping. -/
theorem async_render_roundtrip_witness :
    renderLilylet sampleExternals "a<b" DEFAULT_OPTIONS
      = "<div class=\"lilylet-container\" data-lilylet data-source=\"a&lt;b\" data-mei=\"&lt;mei&gt;x&lt;/mei&gt;\"></div>"
    ∧ unescapeHtml (escapeHtml "a<b") = "a<b" := by
  have h := async_render_roundtrip sampleExternals DEFAULT_OPTIONS "a<b" ⟨some [()]⟩
    "<mei>x</mei>" rfl rfl rfl rfl
  exact ⟨h.1.trans (by decide), h.2.1⟩

/-- Claim C7: the computed page height is
`max(baseline, ceil(measureCount / measuresPerPage) * baseline)` with
baseline 2000 and 20 measures per page; 21 measures give two baselines,
20 measures one, and a document without a measures list counts as one
measure. -/
theorem page_height_formula (doc : Doc) :
    ((computePageHeight doc : ℤ) = max 2000 (⌈(measureCountOf doc : ℚ) / 20⌉ * 2000))
    ∧ computePageHeight ⟨some (List.replicate 21 ())⟩ = 4000
    ∧ computePageHeight ⟨some (List.replicate 20 ())⟩ = 2000
    ∧ measureCountOf ⟨none⟩ = 1
    ∧ computePageHeight ⟨none⟩ = 2000 := by
  refine ⟨?_, rfl, rfl, rfl, rfl⟩
  rw [ceil_div_twenty]
  unfold computePageHeight
  push_cast [Nat.cast_max]
  norm_num

/-- Claim C8: with the default aliases, "lyl.play" is playable lilylet,
"LYL" is plain lilylet, "lyla" is not lilylet; matching lower-cases the whole
info string, strips a trailing ".play" before comparing, and tests exact
membership in the alias list. -/
theorem tag_matcher_spec :
    parseLanguageTag "lyl.play" ["lilylet", "lyl"] = ⟨true, true⟩
    ∧ parseLanguageTag "LYL" ["lilylet", "lyl"] = ⟨true, false⟩
    ∧ parseLanguageTag "lyla" ["lilylet", "lyl"] = ⟨false, false⟩
    ∧ (∀ i1 i2 aliases, jsToLowerCase i1 = jsToLowerCase i2 →
        parseLanguageTag i1 aliases = parseLanguageTag i2 aliases)
    ∧ (∀ info aliases,
        parseLanguageTag info aliases =
          if jsEndsWith (jsToLowerCase info) ".play" then
            ⟨aliases.contains (jsSliceNeg (jsToLowerCase info) 5), true⟩
          else ⟨aliases.contains (jsToLowerCase info), false⟩) :=
  ⟨by decide, by decide, by decide,
   fun i1 i2 aliases h => by simp only [parseLanguageTag, h],
   fun info aliases => rfl⟩

/-- Witness for C8: case-insensitivity applied at concrete inputs. -/
theorem tag_matcher_spec_witness :
    parseLanguageTag "LyL.Play" ["lilylet", "lyl"]
      = parseLanguageTag "lYl.plAY" ["lilylet", "lyl"] :=
  (tag_matcher_spec.2.2.2.1) "LyL.Play" "lYl.plAY" ["lilylet", "lyl"] (by decide)

/-- Claim C9: a fenced block whose (trimmed) info tag does not match the alias
set is delegated to the previously installed fence renderer with unchanged
arguments, producing exactly the host engine's own output. -/
theorem fence_hook_fallback (opts : ResolvedOptions) (cache : Cache)
    (orig : List Token → Nat → String) (tokens : List Token) (idx : Nat)
    (h : (parseLanguageTag (jsTrim (tokens.getD idx ⟨"", ""⟩).info) opts.langAliases).isLilylet
          = false) :
    installedFence opts cache orig tokens idx = orig tokens idx := by
  simp only [installedFence, h, Bool.false_eq_true, if_false]

/-- Witness for C9 at a concrete non-lilylet block. -/
theorem fence_hook_fallback_witness :
    installedFence DEFAULT_OPTIONS Cache.empty (fun _ _ => "ORIG")
        [⟨"javascript", "console.log(1);"⟩] 0 = "ORIG" :=
  fence_hook_fallback DEFAULT_OPTIONS Cache.empty (fun _ _ => "ORIG")
    [⟨"javascript", "console.log(1);"⟩] 0 (by decide)

/-- Claim C10 (implicit): the matcher lower-cases the info string but compares
it verbatim against the aliases, so when every configured alias contains an
upper-case character no info string matches — including the info string equal
to such an alias character-for-character. -/
theorem uppercase_alias_never_matches (aliases : List String) (info : String)
    (hup : ∀ a ∈ aliases, ∃ ch ∈ a.data, ch.isUpper = true) :
    (parseLanguageTag info aliases).isLilylet = false
    ∧ (parseLanguageTag "LYL" ["LYL"]).isLilylet = false := by
  constructor
  · have hlchars : ∀ ch ∈ (jsToLowerCase info).data, ch.isUpper = false := by
      intro ch hch
      simp only [jsToLowerCase, List.mem_map] at hch
      obtain ⟨x, _, hx⟩ := hch
      rw [← hx]
      exact toLower_isUpper_false x
    have hkey : ∀ (key : String), (∀ ch ∈ key.data, ch.isUpper = false) →
        aliases.contains key = false := by
      intro key hk
      by_contra hcon
      rw [Bool.not_eq_false] at hcon
      unfold List.contains at hcon
      have hmem : key ∈ aliases := List.elem_iff.mp hcon
      obtain ⟨ch, hchmem, hchup⟩ := hup key hmem
      rw [hk ch hchmem] at hchup
      exact Bool.noConfusion hchup
    unfold parseLanguageTag
    by_cases hend : jsEndsWith (jsToLowerCase info) ".play"
    · simp only [if_pos hend]
      apply hkey
      intro ch hch
      exact hlchars ch (List.take_subset _ _ hch)
    · simp only [if_neg hend]
      exact hkey _ hlchars
  · decide

/-- Witness for C10 at a concrete upper-case alias. -/
theorem uppercase_alias_never_matches_witness :
    (parseLanguageTag "mytag" ["MyTag"]).isLilylet = false
    ∧ (parseLanguageTag "LYL" ["LYL"]).isLilylet = false :=
  uppercase_alias_never_matches ["MyTag"] "mytag" (by decide)

end Lilylet
